import Mathlib

/-!
Verification of the layered resource resolution and safe-deletion subsystem
of the lcagents repository (`LayerManager` and `SafeDeleteManager`).

The embedding models the filesystem as a finite association list from paths
(lists of path segments) to file contents.  Node's `path.join` on plain
segment arguments (no separators, no `.`/`..` segments — the only kind of
segment produced by the code under consideration) is list append, and a
rendered path string is the `/`-intercalation of its segments.  Directories
exist exactly when some file lives strictly below them, matching the
observable behaviour of `fs.pathExists` / `fs.readdir` on the operation
sequences modelled here (the code never creates a directory that it does not
immediately populate).  External collaborators (`CoreSystemManager`,
`ResourceResolver`) and the clock are injected oracles, as §2 and §9 of the
spec direct.
-/

namespace LCAgents

/-- A filesystem path, as its list of `/`-separated segments. -/
abbrev Path := List String

/-- Kind tag of a recorded dependency (`'agent' | 'resource'`). -/
inductive DepKind where
  | agent
  | resource
deriving DecidableEq, Repr

/-- The `ResourceDependency` record of `SafeDeleteManager`. -/
structure ResourceDependency where
  type : DepKind
  name : String
  path : Path
deriving DecidableEq, Repr

/-- The `BackupMetadata` record of `SafeDeleteManager`. -/
structure BackupMetadata where
  timestamp : String
  resourceName : String
  resourceType : String
  dependencies : List ResourceDependency
  originalPath : Path
deriving DecidableEq, Repr

/-- Content of one file: either plain text, or the JSON metadata document
written by `createBackup` (`fs.writeJSON`). -/
inductive FileContent where
  | text (s : String)
  | json (m : BackupMetadata)
deriving DecidableEq, Repr

/-- The filesystem: an association list from file paths to contents.
Only files are stored; a directory exists iff a file lives below it. -/
abbrev FS := List (Path × FileContent)

/-- A file exists at exactly this path. -/
def isFile (fs : FS) (p : Path) : Bool :=
  fs.any (fun e => e.1 == p)

/-- A directory exists at this path: some file lives strictly below it. -/
def dirExists (fs : FS) (p : Path) : Bool :=
  fs.any (fun e => p.isPrefixOf e.1 && e.1 != p)

/-- The `fs.pathExists`: true for a file or a (nonempty) directory.  The empty
path (Node: `''`) never exists — `fs.stat('')` fails with `ENOENT`. -/
def pathExists (fs : FS) (p : Path) : Bool :=
  p != [] && (isFile fs p || dirExists fs p)

/-- Raw content lookup (first matching entry wins, as later writes prepend). -/
def readFileC (fs : FS) (p : Path) : Option FileContent :=
  (fs.find? (fun e => e.1 == p)).map (·.2)

/-- The `fs.writeFile` / `fs.writeJSON`: overwrite the file at `p`. -/
def writeFileC (fs : FS) (p : Path) (c : FileContent) : FS :=
  (p, c) :: fs.filter (fun e => !(e.1 == p))

/-- The `fs.remove`: delete the file at `p`, or the directory `p` recursively. -/
def removeFs (fs : FS) (p : Path) : FS :=
  fs.filter (fun e => !(p.isPrefixOf e.1))

/-- The `fs.copy src dst`: copy the file at `src`, or the whole tree below
`src`, to `dst`, overwriting files already present at the destination. -/
def copyFs (fs : FS) (src dst : Path) : FS :=
  let copied := (fs.filter (fun e => src.isPrefixOf e.1)).map
    (fun e => (dst ++ e.1.drop src.length, e.2))
  copied ++ fs.filter (fun e => !(copied.any (fun m => m.1 == e.1)))

/-- Names already seen are dropped; used to give `readdir` its
each-entry-once semantics. -/
def dedupFirstAux (seen : List String) : List String → List String
  | [] => []
  | x :: xs =>
    if seen.contains x then dedupFirstAux seen xs
    else x :: dedupFirstAux (x :: seen) xs

/-- The `fs.readdir dir`: the immediate child names under `dir`, each once, in
filesystem-listing order (implementation defined; here: entry order). -/
def readdir (fs : FS) (d : Path) : List String :=
  dedupFirstAux []
    (fs.filterMap (fun e =>
      if d.isPrefixOf e.1 then (e.1.drop d.length).head? else none))

/-- The `path.basename` of a segment path. -/
def basename (p : Path) : String := p.getLastD ""

/-- The `path.dirname` of a segment path.  (For a single-segment path Node
returns `'.'`; that case never arises in the flows modelled here, where
every `originalPath` has at least five segments.) -/
def dirname (p : Path) : Path := p.dropLast

/-- The rendered string of a segment path (what Node's `path.join`
returns for these segments). -/
def renderPath : Path → String
  | [] => ""
  | [s] => s
  | s :: r :: rs => s ++ "/" ++ renderPath (r :: rs)

/-- Does `pat` occur as a contiguous substring of `s`?
(JavaScript `String.prototype.includes`.) -/
def containsAux (pat : List Char) : List Char → Bool
  | [] => pat.isEmpty
  | c :: rest => pat.isPrefixOf (c :: rest) || containsAux pat rest

/-- JavaScript `s.includes(pat)`. -/
def strContains (s pat : String) : Bool :=
  containsAux pat.data s.data

/-- JavaScript `s.replace(pat, '')`: remove the first occurrence of `pat`. -/
def replaceFirstAux (pat : List Char) : List Char → List Char
  | [] => []
  | c :: rest =>
    if pat.isPrefixOf (c :: rest) then (c :: rest).drop pat.length
    else c :: replaceFirstAux pat rest

/-- JavaScript `s.replace(pat, '')` (first occurrence only). -/
def replaceFirst (s pat : String) : String :=
  ⟨replaceFirstAux pat.data s.data⟩

/-- JavaScript `s.endsWith(pat)`. -/
def strEndsWith (s pat : String) : Bool :=
  pat.data.isSuffixOf s.data

/-- The `new Date().toISOString().replace(/[:.]/g, '-')`: every `:` and `.`
becomes `-`. -/
def sanitizeTimestamp (s : String) : String :=
  ⟨s.data.map (fun c => if c == ':' || c == '.' then '-' else c)⟩

/-- JavaScript truthiness of a `string | null | undefined` value:
`null`, `undefined` and `''` are falsy. -/
def jsFalsyStr : Option String → Bool
  | none => true
  | some s => s == ""

/-- The `a || b` for JavaScript strings (`''` falls through to the default). -/
def jsOrStr (a : Option String) (dflt : String) : String :=
  match a with
  | some s => if s == "" then dflt else s
  | none => dflt

/-- Layer tag: `core | org | custom`. -/
inductive LayerType where
  | core
  | org
  | custom
deriving DecidableEq, Repr

/-- Static environment of one invocation: the base path handed to the
managers plus the injected external collaborators. -/
structure Config where
  /-- The `basePath` passed to the manager constructors (the CLI passes
  `process.cwd()`, here the empty path). -/
  basePath : Path
  /-- Modelled from the spec: `CoreSystemManager.getActiveCoreSystem()`
  (the class is not under `src/`); §6: `identifier string | absent`,
  treated as a read-only oracle (§2, §9). -/
  activeCore : Option String
  /-- Modelled from the spec: `ResourceResolver.getResourceMetadata(type,
  name)` (the class is not under `src/`); §4.2 step 4: the declared
  dependency list of the resource's metadata, `none` when there is no
  metadata or it declares no dependency list (the code consumes it only
  through `metadata?.dependencies?.includes(resourceName)`). -/
  resourceMetaDeps : String → String → Option (List String)
  /-- The clock oracle: the value of `new Date().toISOString()` at the
  moment `createBackup` runs. -/
  now : String

/-- The `path.join(basePath, '.lcagents')` stored by the `LayerManager`
constructor. -/
def lcagentsPath (cfg : Config) : Path := cfg.basePath ++ [".lcagents"]

/-- The `AgentResolutionPath` record (`''` path fields are the empty path). -/
structure AgentResolutionPath where
  agentId : String
  coreSystem : String
  corePath : Path
  finalPath : Path
  layerSources : List LayerType
deriving DecidableEq, Repr

/-- The `LayerManager.resolveAgent(agentId, coreSystem?)`.  With no active core
system (`null` or `''`) it returns the sentinel unresolved record. -/
def resolveAgent (cfg : Config) (fs : FS) (agentId : String)
    (coreSystemOv : Option String) : AgentResolutionPath :=
  let activeCore := jsOrStr coreSystemOv (jsOrStr cfg.activeCore "bmad-core")
  if jsFalsyStr cfg.activeCore then
    { agentId := agentId, coreSystem := "", corePath := [], finalPath := [],
      layerSources := [] }
  else
    let acs := cfg.activeCore.getD ""
    let corePath := lcagentsPath cfg ++
      ["core", "." ++ acs, "agents", agentId ++ ".md"]
    let orgOverridePath := lcagentsPath cfg ++
      ["org", "agents", "overrides", agentId ++ ".yaml"]
    let customOverridePath := lcagentsPath cfg ++
      ["custom", "agents", "overrides", agentId ++ ".yaml"]
    let layerSources := [LayerType.core]
      ++ (if pathExists fs orgOverridePath then [LayerType.org] else [])
      ++ (if pathExists fs customOverridePath then [LayerType.custom] else [])
    { agentId := agentId, coreSystem := activeCore, corePath := corePath,
      finalPath := corePath, layerSources := layerSources }

/-- The `LayerManager.listAgents()`: base names (first `.md` stripped) of the
`*.md` entries of the active core system's `agents` directory; `[]` when
there is no active core system or the directory is absent. -/
def listAgents (cfg : Config) (fs : FS) : List String :=
  if jsFalsyStr cfg.activeCore then []
  else
    let ac := cfg.activeCore.getD ""
    let agentsPath := lcagentsPath cfg ++ ["core", "." ++ ac, "agents"]
    if pathExists fs agentsPath then
      ((readdir fs agentsPath).filter (fun f => strEndsWith f ".md")).map
        (fun f => replaceFirst f ".md")
    else []

/-- Abstract serialization of a JSON document re-read as text; the flows
proved about never read a metadata document through `fs.readFile`. -/
def metadataText (m : BackupMetadata) : String :=
  String.intercalate "|"
    [m.timestamp, m.resourceName, m.resourceType, renderPath m.originalPath]

/-- The record built by `LayerManager.loadAgent`: the object literal
`{ name, content, path }`.  The `dependencies` and `definition` fields are
*absent* on this object (JavaScript `undefined`); they are carried as
`Option` fields that `loadAgent` always sets to `none`, because
`SafeDeleteManager.checkDependencies` reads `agent.dependencies` and
`SafeDeleteManager.updateDependencies` reads `agent.definition`. -/
structure AgentRecord where
  name : String
  content : String
  path : AgentResolutionPath
  /-- Absent on every record `loadAgent` builds; read by
  `checkDependencies` as `agent.dependencies || {}` (an object whose
  values are dependency arrays — the keys are never consulted). -/
  dependencies : Option (List (List String))
  /-- Absent on every record `loadAgent` builds; read by
  `updateDependencies` as `agent.definition.dependencies`. -/
  definition : Option (List (String × List String))
deriving DecidableEq, Repr

/-- The error kinds thrown by the embedded code, one constructor per
`throw` site (§7 maps them to semantic kinds). -/
inductive SDError where
  /-- The `Resource not found: <name>` (checkDependencies, createBackup,
  safeDelete step 5). -/
  | resourceNotFound (name : String)
  /-- The `Cannot delete core system resources. These resources are
  immutable.` -/
  | coreResourceProtected
  /-- The `Resource has active dependencies: <list>. Use --force to
  override.` (carries the dependent list the message is built from). -/
  | dependenciesExist (deps : List ResourceDependency)
  /-- The `Agent <name> not found` (loadAgent). -/
  | agentNotFound (name : String)
  /-- The `fs.readFile` on a directory (`EISDIR`). -/
  | eisdir
  /-- The `Invalid backup: metadata not found` (restoreBackup). -/
  | invalidBackup
  /-- The `fs.readJSON` on a file that is not a JSON document. -/
  | jsonParseFailed
  /-- The `Original resource location no longer exists` (restoreBackup). -/
  | staleLocation
  /-- The `fs.copy` with a missing source (`ENOENT`). -/
  | copySourceMissing
  /-- The `Invalid agent object - missing path information` (saveAgent). -/
  | invalidAgentRecord
  /-- JavaScript `TypeError` from reading `.dependencies` of the
  `undefined` value `agent.definition` (updateDependencies). -/
  | typeError
  /-- The `No active core system found` (resolveTemplate). -/
  | noActiveCoreSystem
  /-- The `Template <name> not found in any layer` (resolveTemplate). -/
  | templateNotFound (name : String)
deriving DecidableEq, Repr

/-- The `LayerManager.loadAgent(agentName)`: resolve, require the core path to
exist, read it.  The returned object literal is `{ name, content, path }`. -/
def loadAgent (cfg : Config) (fs : FS) (agentName : String) :
    Except SDError AgentRecord :=
  let agentPath := resolveAgent cfg fs agentName none
  if pathExists fs agentPath.corePath then
    match readFileC fs agentPath.corePath with
    | some (.text c) =>
      .ok { name := agentName, content := c, path := agentPath,
            dependencies := none, definition := none }
    | some (.json m) =>
      .ok { name := agentName, content := metadataText m, path := agentPath,
            dependencies := none, definition := none }
    | none => .error .eisdir
  else .error (.agentNotFound agentName)

/-- The `LayerManager.saveAgent(agent)`: writes `agent.content` (the unmodified
content string — not the `definition`) to `agent.path.corePath`. -/
def saveAgent (fs : FS) (agent : AgentRecord) : Except SDError FS :=
  if agent.path.corePath == [] then .error .invalidAgentRecord
  else .ok (writeFileC fs agent.path.corePath (.text agent.content))

/-- The `ResourceWithSource` record. -/
structure ResourceWithSource where
  name : String
  path : Path
  source : LayerType
deriving DecidableEq, Repr

/-- The `LayerManager.listResources(resourceType)`: directory entries of the
core, org and custom subdirectories for the type, in that order, each
tagged with its layer; `[]` with no active core system. -/
def listResources (cfg : Config) (fs : FS) (resourceType : String) :
    List ResourceWithSource :=
  if jsFalsyStr cfg.activeCore then []
  else
    let ac := cfg.activeCore.getD ""
    let corePath := lcagentsPath cfg ++ ["core", "." ++ ac, resourceType]
    let coreList :=
      if pathExists fs corePath then
        (readdir fs corePath).map (fun f =>
          { name := f, path := corePath ++ [f], source := LayerType.core })
      else []
    let orgPath := lcagentsPath cfg ++ ["org", resourceType]
    let orgList :=
      if pathExists fs orgPath then
        (readdir fs orgPath).map (fun f =>
          { name := f, path := orgPath ++ [f], source := LayerType.org })
      else []
    let customPath := lcagentsPath cfg ++ ["custom", resourceType]
    let customList :=
      if pathExists fs customPath then
        (readdir fs customPath).map (fun f =>
          { name := f, path := customPath ++ [f], source := LayerType.custom })
      else []
    coreList ++ orgList ++ customList

/-- The `LayerManager.getResourcePath(resourceType, resourceName)`: only the
**core** layer is consulted — the path is built from the core layer's
directory and returned iff it exists; `null` with no active core system. -/
def getResourcePath (cfg : Config) (fs : FS)
    (resourceType resourceName : String) : Option Path :=
  if jsFalsyStr cfg.activeCore then none
  else
    let ac := cfg.activeCore.getD ""
    let resourcePath := lcagentsPath cfg ++
      ["core", "." ++ ac, resourceType, resourceName]
    if pathExists fs resourcePath then some resourcePath else none

/-- The template path checked by `resolveTemplate` for one layer. -/
def templatePathFor (cfg : Config) (ac : String) (layer : LayerType)
    (templateName : String) : Path :=
  match layer with
  | .core => lcagentsPath cfg ++ ["core", "." ++ ac, "templates", templateName]
  | .org => lcagentsPath cfg ++ ["org", "templates", templateName]
  | .custom => lcagentsPath cfg ++ ["custom", "templates", templateName]

/-- The `for (const layer of layers)` loop of `resolveTemplate`. -/
def resolveTemplateLoop (cfg : Config) (fs : FS) (ac templateName : String) :
    List LayerType → Except SDError ResourceWithSource
  | [] => .error (.templateNotFound templateName)
  | layer :: rest =>
    let templatePath := templatePathFor cfg ac layer templateName
    if pathExists fs templatePath then
      .ok { name := templateName, path := templatePath, source := layer }
    else resolveTemplateLoop cfg fs ac templateName rest

/-- The `LayerManager.resolveTemplate(templateName)`: requires an active core
system, then checks `custom → org → core` and returns the first hit. -/
def resolveTemplate (cfg : Config) (fs : FS) (templateName : String) :
    Except SDError ResourceWithSource :=
  if jsFalsyStr cfg.activeCore then .error .noActiveCoreSystem
  else
    resolveTemplateLoop cfg fs (cfg.activeCore.getD "") templateName
      [LayerType.custom, LayerType.org, LayerType.core]

/-! ## SafeDeleteManager -/

/-- The `DeleteOptions` with every flag present (after merging defaults). -/
structure DeleteOptions where
  force : Bool
  updateDeps : Bool
  skipBackup : Bool
deriving DecidableEq, Repr

/-- The `Partial<DeleteOptions>` as passed by callers. -/
structure PartialDeleteOptions where
  force : Option Bool
  updateDeps : Option Bool
  skipBackup : Option Bool
deriving DecidableEq, Repr

/-- The `{ ...defaultOptions, ...options }` with the defaults all `false`. -/
def mergeOptions (o : PartialDeleteOptions) : DeleteOptions :=
  { force := o.force.getD false, updateDeps := o.updateDeps.getD false,
    skipBackup := o.skipBackup.getD false }

/-- The `private readonly backupDir = '.lcagents/backups'` — note: a path
relative to the working directory, not joined with `basePath`. -/
def backupDir : Path := [".lcagents", "backups"]

/-- The `SafeDeleteManager.isCoreResource(resourcePath)`:
`resourcePath.includes('.lcagents/core/')` on the rendered path string. -/
def isCoreResource (resourcePath : Path) : Bool :=
  strContains (renderPath resourcePath) ".lcagents/core/"

/-- The `DependencyCheckResult` record. -/
structure DependencyCheckResult where
  hasActive : Bool
  dependencies : List ResourceDependency
  isCore : Bool
deriving DecidableEq, Repr

/-- The agent loop of `checkDependencies`: for each listed agent, load it
(a failure is caught: warn and continue with the next agent) and record an
`agent`-kind dependency when one of the arrays of `agent.dependencies || {}`
contains `resourceName`.  (`agent.dependencies` is absent on every record
`loadAgent` builds, so no array is ever inspected.) -/
def agentDepScan (cfg : Config) (fs : FS) (resourceName : String)
    (agents : List String) : List ResourceDependency :=
  agents.filterMap (fun agentName =>
    match loadAgent cfg fs agentName with
    | .error _ => none
    | .ok agent =>
      let allDeps := agent.dependencies.getD []
      if allDeps.any (fun deps => deps.contains resourceName) then
        some { type := DepKind.agent, name := agentName,
               path := agent.path.corePath }
      else none)

/-- The resource loop of `checkDependencies`: every same-type resource other
than the target whose metadata dependency list contains `resourceName`. -/
def resourceDepScan (cfg : Config) (resourceName resourceType : String)
    (resources : List ResourceWithSource) : List ResourceDependency :=
  resources.filterMap (fun r =>
    if r.name == resourceName then none
    else
      match cfg.resourceMetaDeps resourceType r.name with
      | some deps =>
        if deps.contains resourceName then
          some { type := DepKind.resource, name := r.name, path := r.path }
        else none
      | none => none)

/-- The `SafeDeleteManager.checkDependencies(resourceName, resourceType)`. -/
def checkDependencies (cfg : Config) (fs : FS)
    (resourceName resourceType : String) :
    Except SDError DependencyCheckResult :=
  match getResourcePath cfg fs resourceType resourceName with
  | none => .error (.resourceNotFound resourceName)
  | some resourcePath =>
    let isCore := isCoreResource resourcePath
    let dependencies :=
      agentDepScan cfg fs resourceName (listAgents cfg fs)
        ++ resourceDepScan cfg resourceName resourceType
             (listResources cfg fs resourceType)
    .ok { hasActive := decide (0 < dependencies.length),
          dependencies := dependencies, isCore := isCore }

/-- The `SafeDeleteManager.createBackup(resourceName, resourceType,
dependencies)`: resolve the resource (throwing `Resource not found`
otherwise), copy it into `<backupDir>/<resourceName>-<timestamp>/` and
write `metadata.json` beside the copy; returns the backup directory. -/
def createBackup (cfg : Config) (fs : FS)
    (resourceName resourceType : String)
    (dependencies : List ResourceDependency) : Except SDError Path × FS :=
  let timestamp := sanitizeTimestamp cfg.now
  let backupName := resourceName ++ "-" ++ timestamp
  let backupPath := backupDir ++ [backupName]
  match getResourcePath cfg fs resourceType resourceName with
  | none => (.error (.resourceNotFound resourceName), fs)
  | some originalPath =>
    let metadata : BackupMetadata :=
      { timestamp := timestamp, resourceName := resourceName,
        resourceType := resourceType, dependencies := dependencies,
        originalPath := originalPath }
    -- fs.ensureDir(backupPath) is a no-op in the files-only model; the
    -- copy below cannot fail because getResourcePath checked existence.
    let fs1 := copyFs fs originalPath (backupPath ++ [basename originalPath])
    let fs2 := writeFileC fs1 (backupPath ++ ["metadata.json"]) (.json metadata)
    (.ok backupPath, fs2)

/-- The `fs.readJSON` of a metadata document. -/
def readJSON (fs : FS) (p : Path) : Except SDError BackupMetadata :=
  match readFileC fs p with
  | some (.json m) => .ok m
  | some (.text _) => .error .jsonParseFailed
  | none => .error .jsonParseFailed

/-- The `SafeDeleteManager.restoreBackup(backupPath)`: require
`<backupPath>/metadata.json`, require the original parent directory to
still exist, then copy the backed-up content back to the original path. -/
def restoreBackup (fs : FS) (backupPath : Path) : Except SDError Unit × FS :=
  let metadataPath := backupPath ++ ["metadata.json"]
  if !(pathExists fs metadataPath) then (.error .invalidBackup, fs)
  else
    match readJSON fs metadataPath with
    | .error e => (.error e, fs)
    | .ok metadata =>
      let originalPath := metadata.originalPath
      let parentDir := dirname originalPath
      if !(pathExists fs parentDir) then (.error .staleLocation, fs)
      else
        let backupFile := backupPath ++ [basename metadata.originalPath]
        if !(pathExists fs backupFile) then (.error .copySourceMissing, fs)
        else (.ok (), copyFs fs backupFile originalPath)

/-- The `indexOf` + `splice(index, 1)`: remove the first occurrence. -/
def removeFirstElem (xs : List String) (x : String) : List String :=
  match xs with
  | [] => []
  | y :: ys => if y == x then ys else y :: removeFirstElem ys x

/-- The in-place mutation of `agent.definition.dependencies`: drop the
first occurrence of `resourceName` from every dependency array. -/
def updateAgentDef (resourceName : String)
    (d : List (String × List String)) : List (String × List String) :=
  d.map (fun kv => (kv.1, removeFirstElem kv.2 resourceName))

/-- The `for (const dep of dependencies)` loop of
`SafeDeleteManager.updateDependencies`.  For an `agent`-kind entry the code
loads the agent and reads `agent.definition.dependencies`; `definition` is
absent on every record `loadAgent` builds, so that read throws a
`TypeError`.  (Were `definition` present, the arrays would be edited in
memory and `saveAgent` called — which persists only the unmodified
`agent.content`.)  `resource`-kind entries are skipped: the code comments
"handled similarly if needed" with no implementation. -/
def updateDependenciesLoop (cfg : Config) (fs : FS) (resourceName : String) :
    List ResourceDependency → Except SDError Unit × FS
  | [] => (.ok (), fs)
  | dep :: rest =>
    if dep.type == DepKind.agent then
      match loadAgent cfg fs dep.name with
      | .error e => (.error e, fs)
      | .ok agent =>
        -- `if (agent)`: loadAgent never resolves with a falsy value.
        match agent.definition with
        | none => (.error .typeError, fs)
        | some d =>
          let agent1 := { agent with
            definition := some (updateAgentDef resourceName d) }
          match saveAgent fs agent1 with
          | .error e => (.error e, fs)
          | .ok fs1 => updateDependenciesLoop cfg fs1 resourceName rest
    else updateDependenciesLoop cfg fs resourceName rest

/-- The spec's step names for `safeDelete` (§4.4), used to record which
steps of one invocation were entered, in order. -/
inductive Step where
  | check
  | gate
  | backup
  | mutate
  | postUpdate
  | rollback
deriving DecidableEq, Repr

/-- Steps 5–7 of `safeDelete` (the body of its `try` block): re-resolve the
resource path, `fs.remove` it, and — when `updateDeps` is set — run
`updateDependencies`.  The step trace records entering Mutate and, when
reached, Post-update. -/
def safeDeleteTry (cfg : Config) (fs : FS)
    (resourceName resourceType : String) (opts : DeleteOptions)
    (deps : List ResourceDependency) : Except SDError Unit × FS × List Step :=
  match getResourcePath cfg fs resourceType resourceName with
  | none => (.error (.resourceNotFound resourceName), fs, [Step.mutate])
  | some resourcePath =>
    let fs1 := removeFs fs resourcePath
    if opts.updateDeps then
      match updateDependenciesLoop cfg fs1 resourceName deps with
      | (.ok _, fs2) => (.ok (), fs2, [Step.mutate, Step.postUpdate])
      | (.error e, fs2) => (.error e, fs2, [Step.mutate, Step.postUpdate])
    else (.ok (), fs1, [Step.mutate])

/-- The `try/catch` of `safeDelete` (steps 5–8): on any error from the try
block, restore from the backup when one was taken, then re-raise the
original error (a failure of `restoreBackup` itself would propagate
instead).  Entering the catch with a backup records the Rollback step. -/
def safeDeleteMutatePhase (cfg : Config) (fs : FS)
    (resourceName resourceType : String) (opts : DeleteOptions)
    (deps : List ResourceDependency) (backupPath : Option Path) :
    Except SDError Unit × FS × List Step :=
  match safeDeleteTry cfg fs resourceName resourceType opts deps with
  | (.ok _, fs1, tr) => (.ok (), fs1, tr)
  | (.error err, fs1, tr) =>
    match backupPath with
    | some bp =>
      match restoreBackup fs1 bp with
      | (.ok _, fs2) => (.error err, fs2, tr ++ [Step.rollback])
      | (.error e2, fs2) => (.error e2, fs2, tr ++ [Step.rollback])
    | none => (.error err, fs1, tr)

/-- The `SafeDeleteManager.safeDelete(resourceName, resourceType, options)`.
Returns the result, the filesystem afterwards, and the ordered trace of
spec steps (§4.4) the invocation entered: Check (dependency check + core
validation), Gate (active-dependency check), Backup, Mutate, Post-update,
Rollback. -/
def safeDelete (cfg : Config) (fs : FS)
    (resourceName resourceType : String) (options : PartialDeleteOptions) :
    Except SDError Unit × FS × List Step :=
  let fullOptions := mergeOptions options
  -- 1. Check dependencies / 2. Validate core system
  match checkDependencies cfg fs resourceName resourceType with
  | .error e => (.error e, fs, [Step.check])
  | .ok dependencyCheck =>
    if dependencyCheck.isCore then
      (.error .coreResourceProtected, fs, [Step.check])
    else
      -- 3. Check for active dependencies
      if dependencyCheck.hasActive && !fullOptions.force then
        (.error (.dependenciesExist dependencyCheck.dependencies), fs,
          [Step.check, Step.gate])
      else
        -- 4. Create backup unless explicitly skipped
        if fullOptions.skipBackup then
          match safeDeleteMutatePhase cfg fs resourceName resourceType
              fullOptions dependencyCheck.dependencies none with
          | (r, fs2, tr2) => (r, fs2, [Step.check, Step.gate] ++ tr2)
        else
          match createBackup cfg fs resourceName resourceType
              dependencyCheck.dependencies with
          | (.error e, fs1) =>
            (.error e, fs1, [Step.check, Step.gate, Step.backup])
          | (.ok backupPath, fs1) =>
            match safeDeleteMutatePhase cfg fs1 resourceName resourceType
                fullOptions dependencyCheck.dependencies (some backupPath) with
            | (r, fs2, tr2) =>
              (r, fs2, [Step.check, Step.gate, Step.backup] ++ tr2)

/-! ## Auxiliary notions for the claims -/

/-- Is the first list an in-order subsequence of the second? -/
def isSubseqOf : List Step → List Step → Bool
  | [], _ => true
  | _ :: _, [] => false
  | a :: as, b :: bs =>
    if a == b then isSubseqOf as bs else isSubseqOf (a :: as) bs

/-- The canonical step order of §4.4 / §5:
Check → Gate → Backup → Mutate → Post-update (→ Rollback). -/
def stepOrder : List Step :=
  [Step.check, Step.gate, Step.backup, Step.mutate, Step.postUpdate,
   Step.rollback]

/-! ## Concrete environments used by the per-claim witnesses and
counterexamples.  The base path is the working directory (the CLI passes
`process.cwd()`), the metadata oracle reports no resource metadata unless
stated otherwise. -/

/-- Environment for C1. -/
def c1cfg : Config :=
  { basePath := [], activeCore := some "bmad-core",
    resourceMetaDeps := fun _ _ => none, now := "2025-01-01T00:00:00.000Z" }

/-- C1: one core-layer task file. -/
def c1p : Path := [".lcagents", "core", ".bmad-core", "tasks", "t1.md"]

/-- C1 filesystem. -/
def c1fs : FS := [(c1p, .text "body")]

/-- Environment for C2. -/
def c2cfg : Config :=
  { basePath := [], activeCore := some "bmad-core",
    resourceMetaDeps := fun _ _ => none, now := "2025-01-01T00:00:00.000Z" }

/-- C2: the agent definition file of agent `pm`. -/
def c2agentPath : Path := [".lcagents", "core", ".bmad-core", "agents", "pm.md"]

/-- C2: the content of `pm.md`, declaring `create-doc.md` in a dependency
array of its definition. -/
def c2agentContent : String :=
  "dependencies:\n  tasks:\n    - create-doc.md\n"

/-- C2 filesystem: agent `pm` declares task `create-doc.md`. -/
def c2fs : FS :=
  [(c2agentPath, .text c2agentContent),
   ([".lcagents", "core", ".bmad-core", "tasks", "create-doc.md"],
    .text "# create-doc task")]

/-- Environment for C3. -/
def c3cfg : Config :=
  { basePath := [], activeCore := some "bmad-core",
    resourceMetaDeps := fun _ _ => none, now := "2025-01-02T03:04:05.678Z" }

/-- C3: the resource to be deleted. -/
def c3p : Path := [".lcagents", "core", ".bmad-core", "tasks", "r.md"]

/-- C3 filesystem: the resource plus a sibling file. -/
def c3fs : FS :=
  [(c3p, .text "# task body"),
   ([".lcagents", "core", ".bmad-core", "tasks", "other.md"], .text "sib")]

/-- C3: the backup directory `createBackup` produces for `c3cfg`. -/
def c3bp : Path := [".lcagents", "backups", "r.md-2025-01-02T03-04-05-678Z"]

/-- Environment for C4. -/
def c4cfg : Config :=
  { basePath := [], activeCore := some "bmad-core",
    resourceMetaDeps := fun _ _ => none, now := "2025-01-02T03:04:05.678Z" }

/-- C4: the resource to be deleted. -/
def c4p : Path := [".lcagents", "core", ".bmad-core", "tasks", "r.md"]

/-- C4: the agent definition file of agent `pm`. -/
def c4agentPath : Path := [".lcagents", "core", ".bmad-core", "agents", "pm.md"]

/-- C4 filesystem: resource, sibling, and one agent. -/
def c4fs : FS :=
  [(c4p, .text "# task body"),
   ([".lcagents", "core", ".bmad-core", "tasks", "other.md"], .text "sib"),
   (c4agentPath, .text "agent pm")]

/-- C4: the backup directory `createBackup` produces for `c4cfg`. -/
def c4bp : Path := [".lcagents", "backups", "r.md-2025-01-02T03-04-05-678Z"]

/-- C4: an `agent`-kind dependency entry for agent `pm`. -/
def c4dep : ResourceDependency :=
  { type := DepKind.agent, name := "pm", path := c4agentPath }

/-- Environment for C6 (active core system configured). -/
def c6cfg : Config :=
  { basePath := [], activeCore := some "bmad-core",
    resourceMetaDeps := fun _ _ => none, now := "2025-01-01T00:00:00.000Z" }

/-- C6 filesystem: template `t.yaml` in both the custom and core layers. -/
def c6fs : FS :=
  [([".lcagents", "custom", "templates", "t.yaml"], .text "custom copy"),
   ([".lcagents", "core", ".bmad-core", "templates", "t.yaml"],
    .text "core copy")]

/-- Environment for the C6 counterexample: no active core system. -/
def c6ncfg : Config :=
  { basePath := [], activeCore := none,
    resourceMetaDeps := fun _ _ => none, now := "2025-01-01T00:00:00.000Z" }

/-- C6 counterexample filesystem: the template exists in the custom layer. -/
def c6nfs : FS :=
  [([".lcagents", "custom", "templates", "t.yaml"], .text "custom copy")]

/-- Environment for C7: no active core system. -/
def c7cfg : Config :=
  { basePath := [], activeCore := none,
    resourceMetaDeps := fun _ _ => none, now := "2025-01-01T00:00:00.000Z" }

/-- C7 filesystem (nonempty, to show the result does not depend on it). -/
def c7fs : FS :=
  [([".lcagents", "core", ".other", "agents", "a.md"], .text "a")]

/-- Environment for C8: the metadata oracle declares that resource `r2.md`
depends on `target.md`. -/
def c8cfg : Config :=
  { basePath := [], activeCore := some "bmad-core",
    resourceMetaDeps := fun t n =>
      if t == "tasks" && n == "r2.md" then some ["target.md"] else none,
    now := "2025-01-01T00:00:00.000Z" }

/-- C8 filesystem: the target task, two further tasks, one loadable agent
and one agent entry that is a directory (so loading it fails). -/
def c8fs : FS :=
  [([".lcagents", "core", ".bmad-core", "tasks", "target.md"], .text "t"),
   ([".lcagents", "core", ".bmad-core", "tasks", "r2.md"], .text "r2"),
   ([".lcagents", "core", ".bmad-core", "tasks", "zz.md"], .text "zz"),
   ([".lcagents", "core", ".bmad-core", "agents", "pm.md"], .text "agent pm"),
   ([".lcagents", "core", ".bmad-core", "agents", "bad.md", "inner"],
    .text "directory agent")]

/-- Environment for C9. -/
def c9cfg : Config :=
  { basePath := [], activeCore := some "bmad-core",
    resourceMetaDeps := fun _ _ => none, now := "2025-01-01T00:00:00.000Z" }

/-- C9: the agent definition file of agent `pm`. -/
def c9agentPath : Path := [".lcagents", "core", ".bmad-core", "agents", "pm.md"]

/-- C9: a sibling resource. -/
def c9sibPath : Path := [".lcagents", "core", ".bmad-core", "tasks", "other.md"]

/-- C9 filesystem. -/
def c9fs : FS :=
  [([".lcagents", "core", ".bmad-core", "tasks", "r.md"], .text "# r"),
   (c9sibPath, .text "sib"),
   (c9agentPath, .text "agent pm")]

/-- Environment for C10. -/
def c10cfg : Config :=
  { basePath := [], activeCore := some "bmad-core",
    resourceMetaDeps := fun _ _ => none, now := "2025-01-01T00:00:00.000Z" }

/-- C10 filesystem: one core-layer task. -/
def c10fs : FS :=
  [([".lcagents", "core", ".bmad-core", "tasks", "x.md"], .text "x")]

/-- C8: the dependency-check result for `target.md` in `c8cfg`/`c8fs`. -/
def c8res : DependencyCheckResult :=
  { hasActive := true,
    dependencies :=
      [{ type := DepKind.resource, name := "r2.md",
         path := [".lcagents", "core", ".bmad-core", "tasks", "r2.md"] }],
    isCore := true }

/-! ## Helper lemmas -/

theorem str_data_append (a b : String) : (a ++ b).data = a.data ++ b.data :=
  rfl

theorem isPrefixOf_self_append (l t : List Char) :
    l.isPrefixOf (l ++ t) = true := by
  induction l with
  | nil => simp [List.isPrefixOf]
  | cons c cs ih => simp [List.isPrefixOf, ih]

theorem containsAux_of_hit (pat s : List Char) (hne : pat ≠ [])
    (h : pat.isPrefixOf s = true) : containsAux pat s = true := by
  cases s with
  | nil =>
    cases pat with
    | nil => exact absurd rfl hne
    | cons c cs => simp [List.isPrefixOf] at h
  | cons d rest => simp [containsAux, h]

theorem containsAux_append_left (pat s xs : List Char)
    (h : containsAux pat s = true) : containsAux pat (xs ++ s) = true := by
  induction xs with
  | nil => simpa using h
  | cons c cs ih => simp [containsAux, ih]

theorem renderPath_cons (s r : String) (rs : List String) :
    renderPath (s :: r :: rs) = s ++ "/" ++ renderPath (r :: rs) := rfl

/-- The rendered string of any path of the form
`pre ++ [".lcagents", "core"] ++ rest` (with `rest` nonempty) contains the
substring `.lcagents/core/`. -/
theorem contains_core_marker (pre rest : Path) (h : rest ≠ []) :
    strContains (renderPath (pre ++ [".lcagents", "core"] ++ rest))
      ".lcagents/core/" = true := by
  induction pre with
  | nil =>
    obtain ⟨r, rs, rfl⟩ := List.exists_cons_of_ne_nil h
    show strContains (renderPath ([".lcagents", "core"] ++ r :: rs))
      ".lcagents/core/" = true
    have hr : renderPath ([".lcagents", "core"] ++ r :: rs)
        = ".lcagents" ++ "/" ++ ("core" ++ "/" ++ renderPath (r :: rs)) := by
      simp [renderPath_cons]
    rw [hr]
    unfold strContains
    apply containsAux_of_hit _ _ (by decide)
    have h15 : (".lcagents/core/" : String).data
        = (".lcagents" : String).data ++ ("/" : String).data
          ++ ("core" : String).data ++ ("/" : String).data := by decide
    have hd : (".lcagents" ++ "/" ++ ("core" ++ "/" ++ renderPath (r :: rs))).data
        = (".lcagents/core/" : String).data ++ (renderPath (r :: rs)).data := by
      rw [h15]
      simp [str_data_append]
    rw [hd]
    exact isPrefixOf_self_append _ _
  | cons q pre ih =>
    have hne2 : pre ++ [".lcagents", "core"] ++ rest ≠ [] := by
      simp [h]
    obtain ⟨l, ls, hls⟩ := List.exists_cons_of_ne_nil hne2
    show strContains (renderPath (q :: (pre ++ [".lcagents", "core"] ++ rest)))
      ".lcagents/core/" = true
    rw [hls, renderPath_cons, ← hls]
    unfold strContains
    rw [show (q ++ "/" ++ renderPath (pre ++ [".lcagents", "core"] ++ rest)).data
        = (q ++ "/").data
          ++ (renderPath (pre ++ [".lcagents", "core"] ++ rest)).data from by
      simp [str_data_append]]
    exact containsAux_append_left _ _ _ ih

/-- Inversion of a successful `getResourcePath`: the returned path is the
core-layer path for the active core system, and it exists. -/
theorem getResourcePath_eq_some (cfg : Config) (fs : FS) (t n : String)
    (p : Path) (h : getResourcePath cfg fs t n = some p) :
    p = lcagentsPath cfg
        ++ ["core", "." ++ cfg.activeCore.getD "", t, n]
      ∧ pathExists fs p = true := by
  unfold getResourcePath at h
  cases hf : jsFalsyStr cfg.activeCore with
  | true => simp [hf] at h
  | false =>
    simp only [hf, Bool.false_eq_true, if_false] at h
    cases hp : pathExists fs (lcagentsPath cfg
        ++ ["core", "." ++ cfg.activeCore.getD "", t, n]) with
    | true =>
      simp only [hp, if_true] at h
      cases h
      exact ⟨rfl, hp⟩
    | false => simp [hp] at h

/-- Every path `getResourcePath` can return is classified core by
`isCoreResource`. -/
theorem isCoreResource_of_resolved (cfg : Config) (fs : FS) (t n : String)
    (p : Path) (h : getResourcePath cfg fs t n = some p) :
    isCoreResource p = true := by
  obtain ⟨hp, -⟩ := getResourcePath_eq_some cfg fs t n p h
  subst hp
  unfold isCoreResource
  have hm := contains_core_marker cfg.basePath
    ["." ++ cfg.activeCore.getD "", t, n] (by simp)
  simpa [lcagentsPath, List.append_assoc] using hm

/-- A successful `checkDependencies` always reports `isCore = true`. -/
theorem checkDependencies_isCore (cfg : Config) (fs : FS) (n t : String)
    (r : DependencyCheckResult) (h : checkDependencies cfg fs n t = .ok r) :
    r.isCore = true := by
  unfold checkDependencies at h
  cases hg : getResourcePath cfg fs t n with
  | none => rw [hg] at h; cases h
  | some p =>
    rw [hg] at h
    cases h
    exact isCoreResource_of_resolved cfg fs t n p hg

/-- Every `safeDelete` invocation stops at the Check step: it returns an
error (the resource is unresolvable, or it is classified core), leaves the
filesystem untouched, and enters no later step. -/
theorem safeDelete_aborts (cfg : Config) (fs : FS) (n t : String)
    (opts : PartialDeleteOptions) :
    ∃ e, safeDelete cfg fs n t opts = (.error e, fs, [Step.check])
      ∧ (e = .resourceNotFound n ∨ e = .coreResourceProtected) := by
  unfold safeDelete
  cases hc : checkDependencies cfg fs n t with
  | error e =>
    refine ⟨e, by simp, ?_⟩
    unfold checkDependencies at hc
    cases hg : getResourcePath cfg fs t n with
    | none => rw [hg] at hc; cases hc; exact Or.inl rfl
    | some p => rw [hg] at hc; cases hc
  | ok r =>
    have hcore : r.isCore = true := checkDependencies_isCore cfg fs n t r hc
    exact ⟨.coreResourceProtected, by simp [hcore], Or.inr rfl⟩

/-- A failing `createBackup` mutates nothing: its only failure is the
resource failing to resolve, raised before anything is copied or written,
and the filesystem comes back unchanged. -/
theorem createBackup_error_fs_eq (cfg : Config) (fs : FS) (n t : String)
    (deps : List ResourceDependency) (e : SDError) (fs1 : FS)
    (h : createBackup cfg fs n t deps = (.error e, fs1)) :
    fs1 = fs ∧ e = .resourceNotFound n := by
  unfold createBackup at h
  cases hg : getResourcePath cfg fs t n with
  | none =>
    rw [hg] at h
    cases h
    exact ⟨rfl, rfl⟩
  | some p =>
    rw [hg] at h
    simp at h

/-- Dropping the elements on which `f` yields nothing does not change a
`filterMap`. -/
theorem filterMap_filter_eq {α β : Type} (f : α → Option β) (pred : α → Bool)
    (h : ∀ a, pred a = false → f a = none) (l : List α) :
    l.filterMap f = (l.filter pred).filterMap f := by
  induction l with
  | nil => rfl
  | cons a l ih =>
    cases hp : pred a with
    | false =>
      rw [List.filter_cons, hp]
      simp [List.filterMap_cons, h a hp, ih]
    | true =>
      rw [List.filter_cons, hp]
      simp [List.filterMap_cons, ih]

/-- Every entry the agent loop records is `agent`-kind. -/
theorem agentDepScan_mem_type (cfg : Config) (fs : FS) (n : String)
    (agents : List String) (d : ResourceDependency)
    (hd : d ∈ agentDepScan cfg fs n agents) : d.type = DepKind.agent := by
  unfold agentDepScan at hd
  rw [List.mem_filterMap] at hd
  obtain ⟨a, -, hf⟩ := hd
  cases hl : loadAgent cfg fs a with
  | error e => rw [hl] at hf; cases hf
  | ok agent =>
    rw [hl] at hf
    by_cases hc : ((agent.dependencies.getD []).any
        (fun deps => deps.contains n)) = true
    · simp only [hc, if_true] at hf
      cases hf
      rfl
    · simp only [Bool.not_eq_true] at hc
      simp only [hc, Bool.false_eq_true, if_false] at hf
      cases hf

/-- Every entry the resource loop records is `resource`-kind and is not the
target itself. -/
theorem resourceDepScan_mem (cfg : Config) (n t : String)
    (rs : List ResourceWithSource) (d : ResourceDependency)
    (hd : d ∈ resourceDepScan cfg n t rs) :
    d.type = DepKind.resource ∧ d.name ≠ n := by
  unfold resourceDepScan at hd
  rw [List.mem_filterMap] at hd
  obtain ⟨r0, -, hf⟩ := hd
  by_cases hn : (r0.name == n) = true
  · simp only [hn, if_true] at hf
    cases hf
  · simp only [Bool.not_eq_true] at hn
    simp only [hn, Bool.false_eq_true, if_false] at hf
    cases hm : cfg.resourceMetaDeps t r0.name with
    | none => rw [hm] at hf; cases hf
    | some deps =>
      rw [hm] at hf
      by_cases hc : deps.contains n = true
      · simp only [hc, if_true] at hf
        cases hf
        refine ⟨rfl, fun he => ?_⟩
        have he2 : r0.name = n := he
        rw [he2] at hn
        simp at hn
      · simp only [Bool.not_eq_true] at hc
        simp only [hc, Bool.false_eq_true, if_false] at hf
        cases hf

/-- A failure loading one agent only drops that agent from the scan: the
agent loop computes the same entries as the loop over the loadable
agents. -/
theorem agentDepScan_skip_failures (cfg : Config) (fs : FS) (n : String)
    (agents : List String) :
    agentDepScan cfg fs n agents
      = agentDepScan cfg fs n (agents.filter (fun a =>
          match loadAgent cfg fs a with
          | .ok _ => true
          | .error _ => false)) := by
  unfold agentDepScan
  apply filterMap_filter_eq
  intro a ha
  cases hl : loadAgent cfg fs a with
  | error e => rfl
  | ok agent => rw [hl] at ha; cases ha

/-! ## Claim theorems -/

/-- C1: for every resource whose resolved path lies under the core-layer
subtree, `safeDelete` fails with `CoreResourceProtected` for every
combination of the `force` and `skipBackup` (and `updateDeps`) options,
performs no mutation, and enters no step past the Check. -/
theorem c1_safeDelete_core_protected (cfg : Config) (fs : FS)
    (n t : String) (p : Path) (opts : PartialDeleteOptions)
    (hres : getResourcePath cfg fs t n = some p)
    (hcore : ∃ rest, rest ≠ [] ∧ p = lcagentsPath cfg ++ ["core"] ++ rest) :
    safeDelete cfg fs n t opts
      = (.error .coreResourceProtected, fs, [Step.check]) := by
  obtain ⟨rest, hrne, hp⟩ := hcore
  have hic : isCoreResource p = true := by
    subst hp
    unfold isCoreResource
    have hm := contains_core_marker cfg.basePath rest hrne
    simpa [lcagentsPath, List.append_assoc] using hm
  have hchk : checkDependencies cfg fs n t = .ok
      { hasActive := decide (0 < (agentDepScan cfg fs n (listAgents cfg fs)
          ++ resourceDepScan cfg n t (listResources cfg fs t)).length),
        dependencies := agentDepScan cfg fs n (listAgents cfg fs)
          ++ resourceDepScan cfg n t (listResources cfg fs t),
        isCore := isCoreResource p } := by
    unfold checkDependencies
    rw [hres]
  unfold safeDelete
  rw [hchk]
  simp [hic]

/-- Witness for C1: a concrete core-layer task; `safeDelete` with
`force := true` and `skipBackup := true` still fails with
`CoreResourceProtected` and mutates nothing. -/
theorem c1_safeDelete_core_protected_witness :
    safeDelete c1cfg c1fs "t1.md" "tasks"
        { force := some true, updateDeps := none, skipBackup := some true }
      = (.error .coreResourceProtected, c1fs, [Step.check]) :=
  c1_safeDelete_core_protected c1cfg c1fs "t1.md" "tasks" c1p
    { force := some true, updateDeps := none, skipBackup := some true }
    rfl
    ⟨[".bmad-core", "tasks", "t1.md"], by decide, rfl⟩

/-- C2 (code-bug evidence): agent `pm`'s definition file declares
`create-doc.md` in a dependency array, yet `checkDependencies` reports no
dependent at all — the record `loadAgent` builds has no `dependencies`
field, so the declaration is never read — and `safeDelete` fails with
`CoreResourceProtected` both without and with `force` (never with
`DependenciesExist`, and `force := true` never succeeds), because every
resolvable resource is classified core. -/
theorem c2_dependency_gating_broken :
    readFileC c2fs c2agentPath = some (.text c2agentContent)
    ∧ strContains c2agentContent "create-doc.md" = true
    ∧ checkDependencies c2cfg c2fs "create-doc.md" "tasks"
        = .ok { hasActive := false, dependencies := [], isCore := true }
    ∧ safeDelete c2cfg c2fs "create-doc.md" "tasks"
        { force := some false, updateDeps := none, skipBackup := none }
        = (.error .coreResourceProtected, c2fs, [Step.check])
    ∧ safeDelete c2cfg c2fs "create-doc.md" "tasks"
        { force := some true, updateDeps := none, skipBackup := none }
        = (.error .coreResourceProtected, c2fs, [Step.check]) := by
  exact ⟨rfl, rfl, rfl, rfl, rfl⟩

/-- C3 (code-bug evidence): for a concrete resource with no dependents,
`safeDelete` with `skipBackup := false` never reaches the backup step — it
fails with `CoreResourceProtected` and creates nothing — although invoking
`createBackup`, deleting, and then `restoreBackup` directly does
round-trip the resource's content back to its original path. -/
theorem c3_backup_roundtrip_unreachable :
    safeDelete c3cfg c3fs "r.md" "tasks"
        { force := none, updateDeps := none, skipBackup := some false }
        = (.error .coreResourceProtected, c3fs, [Step.check])
    ∧ (createBackup c3cfg c3fs "r.md" "tasks" []).1 = .ok c3bp
    ∧ readFileC (createBackup c3cfg c3fs "r.md" "tasks" []).2
        (c3bp ++ ["r.md"]) = some (.text "# task body")
    ∧ readJSON (createBackup c3cfg c3fs "r.md" "tasks" []).2
        (c3bp ++ ["metadata.json"])
        = .ok { timestamp := "2025-01-02T03-04-05-678Z",
                resourceName := "r.md", resourceType := "tasks",
                dependencies := [], originalPath := c3p }
    ∧ (restoreBackup
        (removeFs (createBackup c3cfg c3fs "r.md" "tasks" []).2 c3p) c3bp).1
        = .ok ()
    ∧ readFileC (restoreBackup
        (removeFs (createBackup c3cfg c3fs "r.md" "tasks" []).2 c3p) c3bp).2
        c3p
        = some (.text "# task body")
    ∧ readFileC c3fs c3p = some (.text "# task body") := by
  exact ⟨rfl, rfl, rfl, rfl, rfl, rfl, rfl⟩

/-- C4 (code-bug evidence): no `safeDelete` invocation ever creates a
backup — every one fails at the Check step — so the rollback path is dead;
entered directly with a backup in hand, the `try/catch` of steps 5–8 does
restore the resource and re-raise the original error. -/
theorem c4_rollback_unreachable :
    safeDelete c4cfg c4fs "r.md" "tasks"
        { force := some true, updateDeps := some true, skipBackup := none }
        = (.error .coreResourceProtected, c4fs, [Step.check])
    ∧ (createBackup c4cfg c4fs "r.md" "tasks" []).1 = .ok c4bp
    ∧ (safeDeleteMutatePhase c4cfg (createBackup c4cfg c4fs "r.md" "tasks" []).2
        "r.md" "tasks" { force := true, updateDeps := true, skipBackup := false }
        [c4dep] (some c4bp)).1 = .error .typeError
    ∧ (safeDeleteMutatePhase c4cfg (createBackup c4cfg c4fs "r.md" "tasks" []).2
        "r.md" "tasks" { force := true, updateDeps := true, skipBackup := false }
        [c4dep] (some c4bp)).2.2
        = [Step.mutate, Step.postUpdate, Step.rollback]
    ∧ readFileC (safeDeleteMutatePhase c4cfg
        (createBackup c4cfg c4fs "r.md" "tasks" []).2
        "r.md" "tasks" { force := true, updateDeps := true, skipBackup := false }
        [c4dep] (some c4bp)).2.1 c4p
        = some (.text "# task body")
    ∧ readFileC c4fs c4p = some (.text "# task body") := by
  exact ⟨rfl, rfl, rfl, rfl, rfl, rfl⟩

/-- C5: within every `safeDelete` invocation the entered steps form an
in-order subsequence of Check → Gate → Backup → Mutate → Post-update →
Rollback; Rollback is entered only in an invocation that entered Mutate
and fails; Mutate is entered only when the backup step was entered or the
backup was explicitly skipped; when the invocation reaches the Backup
step (`skipBackup` unset) and `createBackup` fails, `safeDelete` aborts
with that error, the filesystem is exactly the pre-call one (no mutation
of the resource or anything else), and neither Mutate nor any later step
is entered; and a failing `createBackup` by itself never mutates the
filesystem (nothing to roll back). -/
theorem c5_safeDelete_step_order (cfg : Config) (fs : FS) (n t : String)
    (opts : PartialDeleteOptions) :
    isSubseqOf (safeDelete cfg fs n t opts).2.2 stepOrder = true
    ∧ ((safeDelete cfg fs n t opts).2.2.contains Step.rollback = true →
        (safeDelete cfg fs n t opts).2.2.contains Step.mutate = true
        ∧ ∃ e, (safeDelete cfg fs n t opts).1 = .error e)
    ∧ ((safeDelete cfg fs n t opts).2.2.contains Step.mutate = true →
        (mergeOptions opts).skipBackup = true
        ∨ (safeDelete cfg fs n t opts).2.2.contains Step.backup = true)
    ∧ (∀ r e fs1, checkDependencies cfg fs n t = .ok r →
        r.isCore = false →
        (r.hasActive && !(mergeOptions opts).force) = false →
        (mergeOptions opts).skipBackup = false →
        createBackup cfg fs n t r.dependencies = (.error e, fs1) →
        safeDelete cfg fs n t opts
          = (.error e, fs, [Step.check, Step.gate, Step.backup]))
    ∧ (∀ fs0 deps e fs1,
        createBackup cfg fs0 n t deps = (.error e, fs1) → fs1 = fs0) := by
  obtain ⟨e, he, -⟩ := safeDelete_aborts cfg fs n t opts
  refine ⟨?_, ?_, ?_, ?_, ?_⟩
  · rw [he]
    exact (by decide : isSubseqOf [Step.check] stepOrder = true)
  · rw [he]
    intro hcontr
    have h2 : ([Step.check] : List Step).contains Step.rollback = true :=
      hcontr
    exact absurd h2 (by decide)
  · rw [he]
    intro hcontr
    have h2 : ([Step.check] : List Step).contains Step.mutate = true :=
      hcontr
    exact absurd h2 (by decide)
  · intro r e2 fs1 hr hic hgate hskip hcb
    obtain ⟨hfs1, -⟩ :=
      createBackup_error_fs_eq cfg fs n t r.dependencies e2 fs1 hcb
    subst hfs1
    unfold safeDelete
    rw [hr]
    simp [hic, hgate, hskip, hcb]
  · intro fs0 deps e2 fs1 hcb
    exact (createBackup_error_fs_eq cfg fs0 n t deps e2 fs1 hcb).1

/-- C6 (amended): given a configured (nonempty) active core system,
`resolveTemplate` checks the custom, org, and core layers in that order
and returns the first layer's copy tagged with that layer; in particular
custom beats core, org beats core, and with no hit in any layer it fails
with `NotFound`. -/
theorem c6_resolveTemplate_precedence (cfg : Config) (fs : FS)
    (name ac : String) (hac : cfg.activeCore = some ac) (hne : ac ≠ "") :
    (pathExists fs (lcagentsPath cfg ++ ["custom", "templates", name]) = true →
      resolveTemplate cfg fs name
        = .ok { name := name,
                path := lcagentsPath cfg ++ ["custom", "templates", name],
                source := LayerType.custom })
    ∧ (pathExists fs (lcagentsPath cfg ++ ["custom", "templates", name]) = false →
       pathExists fs (lcagentsPath cfg ++ ["org", "templates", name]) = true →
      resolveTemplate cfg fs name
        = .ok { name := name,
                path := lcagentsPath cfg ++ ["org", "templates", name],
                source := LayerType.org })
    ∧ (pathExists fs (lcagentsPath cfg ++ ["custom", "templates", name]) = false →
       pathExists fs (lcagentsPath cfg ++ ["org", "templates", name]) = false →
       pathExists fs
         (lcagentsPath cfg ++ ["core", "." ++ ac, "templates", name]) = true →
      resolveTemplate cfg fs name
        = .ok { name := name,
                path := lcagentsPath cfg ++ ["core", "." ++ ac, "templates", name],
                source := LayerType.core })
    ∧ (pathExists fs (lcagentsPath cfg ++ ["custom", "templates", name]) = false →
       pathExists fs (lcagentsPath cfg ++ ["org", "templates", name]) = false →
       pathExists fs
         (lcagentsPath cfg ++ ["core", "." ++ ac, "templates", name]) = false →
      resolveTemplate cfg fs name = .error (.templateNotFound name)) := by
  have hfalsy : jsFalsyStr cfg.activeCore = false := by
    rw [hac]; simp [jsFalsyStr, hne]
  have hget : cfg.activeCore.getD "" = ac := by rw [hac]; rfl
  refine ⟨fun h1 => ?_, fun h1 h2 => ?_, fun h1 h2 h3 => ?_,
    fun h1 h2 h3 => ?_⟩ <;>
    simp [resolveTemplate, hfalsy, hget, resolveTemplateLoop, templatePathFor,
      h1]
  · simp [h2]
  · simp [h2, h3]
  · simp [h2, h3]

/-- Witness for C6: with template `t.yaml` present in both the custom and
core layers, the custom copy is returned. -/
theorem c6_resolveTemplate_precedence_witness :
    resolveTemplate c6cfg c6fs "t.yaml"
      = .ok { name := "t.yaml",
              path := [".lcagents", "custom", "templates", "t.yaml"],
              source := LayerType.custom } :=
  (c6_resolveTemplate_precedence c6cfg c6fs "t.yaml" "bmad-core" rfl
    (by decide)).1 (by decide)

/-- C6 counterexample to the claim as stated: with no active core system,
`resolveTemplate` fails with `No active core system found` even though the
template exists in the custom layer — it neither returns the custom copy
nor fails with `NotFound`. -/
theorem c6_resolveTemplate_counterexample :
    pathExists c6nfs ([".lcagents", "custom", "templates", "t.yaml"]) = true
    ∧ resolveTemplate c6ncfg c6nfs "t.yaml" = .error .noActiveCoreSystem := by
  exact ⟨rfl, rfl⟩

/-- C7: with no active core system configured, `listAgents` returns the
empty sequence and `resolveAgent` returns, for every agent id and every
override argument, the unresolved sentinel (empty `coreSystem`, empty
`corePath` and `finalPath`, empty `layerSources`); neither operation
fails. -/
theorem c7_no_active_core_sentinel (cfg : Config) (fs : FS)
    (h : cfg.activeCore = none) :
    listAgents cfg fs = []
    ∧ ∀ x ov, resolveAgent cfg fs x ov
        = { agentId := x, coreSystem := "", corePath := [], finalPath := [],
            layerSources := [] } := by
  constructor
  · simp [listAgents, jsFalsyStr, h]
  · intro x ov
    simp [resolveAgent, jsFalsyStr, h]

/-- Witness for C7 at a concrete environment. -/
theorem c7_no_active_core_sentinel_witness :
    listAgents c7cfg c7fs = []
    ∧ resolveAgent c7cfg c7fs "x" none
        = { agentId := "x", coreSystem := "", corePath := [], finalPath := [],
            layerSources := [] } :=
  ⟨(c7_no_active_core_sentinel c7cfg c7fs rfl).1,
   (c7_no_active_core_sentinel c7cfg c7fs rfl).2 "x" none⟩

/-- C8: for every successful `checkDependencies` call, `hasActive` holds
iff the dependency sequence is nonempty; the sequence is exactly the
agent-loop entries (in `listAgents` order) followed by the resource-loop
entries (in `listResources` order, the target itself excluded), with no
further sorting; and a failure loading any single agent is non-fatal — the
scan equals the scan over the loadable agents. -/
theorem c8_checkDependencies_shape (cfg : Config) (fs : FS) (n t : String)
    (r : DependencyCheckResult) (h : checkDependencies cfg fs n t = .ok r) :
    (r.hasActive = true ↔ r.dependencies ≠ [])
    ∧ r.dependencies = agentDepScan cfg fs n (listAgents cfg fs)
        ++ resourceDepScan cfg n t (listResources cfg fs t)
    ∧ (∀ d ∈ agentDepScan cfg fs n (listAgents cfg fs),
        d.type = DepKind.agent)
    ∧ (∀ d ∈ resourceDepScan cfg n t (listResources cfg fs t),
        d.type = DepKind.resource ∧ d.name ≠ n)
    ∧ (∀ agents : List String, agentDepScan cfg fs n agents
        = agentDepScan cfg fs n (agents.filter (fun a =>
            match loadAgent cfg fs a with
            | .ok _ => true
            | .error _ => false))) := by
  unfold checkDependencies at h
  cases hg : getResourcePath cfg fs t n with
  | none => rw [hg] at h; cases h
  | some p =>
    rw [hg] at h
    cases h
    refine ⟨?_, rfl, fun d hd => agentDepScan_mem_type cfg fs n _ d hd,
      fun d hd => resourceDepScan_mem cfg n t _ d hd,
      fun agents => agentDepScan_skip_failures cfg fs n agents⟩
    cases hdeps : (agentDepScan cfg fs n (listAgents cfg fs)
        ++ resourceDepScan cfg n t (listResources cfg fs t)) with
    | nil => simp [hdeps]
    | cons a l => simp [hdeps]

/-- Witness for C8: a concrete environment with one resource dependent
(and one unloadable agent entry that is skipped). -/
theorem c8_checkDependencies_shape_witness :
    checkDependencies c8cfg c8fs "target.md" "tasks" = .ok c8res
    ∧ (c8res.hasActive = true ↔ c8res.dependencies ≠ []) :=
  ⟨rfl,
   (c8_checkDependencies_shape c8cfg c8fs "target.md" "tasks" c8res
      rfl).1⟩

/-- C9 (code-bug evidence): a delete with `updateDeps := true` never
reaches the Post-update step (`safeDelete` fails at the Check step); and
`updateDependencies` itself, invoked directly, throws a `TypeError` on an
`agent`-kind entry (it reads `agent.definition`, which `loadAgent` never
sets) and ignores `resource`-kind entries — so no dependent agent's
dependency arrays are ever rewritten or persisted. -/
theorem c9_updateDependencies_broken :
    safeDelete c9cfg c9fs "r.md" "tasks"
        { force := some true, updateDeps := some true, skipBackup := some true }
        = (.error .coreResourceProtected, c9fs, [Step.check])
    ∧ (updateDependenciesLoop c9cfg c9fs "r.md"
        [{ type := DepKind.agent, name := "pm", path := c9agentPath }]).1
        = .error .typeError
    ∧ (updateDependenciesLoop c9cfg c9fs "r.md"
        [{ type := DepKind.agent, name := "pm", path := c9agentPath }]).2
        = c9fs
    ∧ (updateDependenciesLoop c9cfg c9fs "r.md"
        [{ type := DepKind.resource, name := "other.md", path := c9sibPath }])
        = (.ok (), c9fs) := by
  exact ⟨rfl, rfl, rfl, rfl⟩

/-- C10: every non-null `getResourcePath` result lies under the core-layer
subtree (it is built from the core layer's directory alone), hence
`isCoreResource` holds of it, and `checkDependencies` reports
`isCore = true` for every resource it can resolve. -/
theorem c10_getResourcePath_core_only (cfg : Config) (fs : FS)
    (t n : String) (p : Path) (h : getResourcePath cfg fs t n = some p) :
    (∃ rest, rest ≠ [] ∧ p = lcagentsPath cfg ++ ["core"] ++ rest)
    ∧ isCoreResource p = true
    ∧ (∀ r, checkDependencies cfg fs n t = .ok r → r.isCore = true) := by
  obtain ⟨hp, -⟩ := getResourcePath_eq_some cfg fs t n p h
  refine ⟨⟨["." ++ cfg.activeCore.getD "", t, n], by simp, by simp [hp]⟩,
    isCoreResource_of_resolved cfg fs t n p h,
    fun r hr => checkDependencies_isCore cfg fs n t r hr⟩

/-- Witness for C10 at a concrete environment. -/
theorem c10_getResourcePath_core_only_witness :
    (∃ rest, rest ≠ []
      ∧ ([".lcagents", "core", ".bmad-core", "tasks", "x.md"] : Path)
          = lcagentsPath c10cfg ++ ["core"] ++ rest)
    ∧ isCoreResource [".lcagents", "core", ".bmad-core", "tasks", "x.md"] = true
    ∧ (∀ r, checkDependencies c10cfg c10fs "x.md" "tasks" = .ok r →
        r.isCore = true) :=
  c10_getResourcePath_core_only c10cfg c10fs "tasks" "x.md"
    [".lcagents", "core", ".bmad-core", "tasks", "x.md"] rfl

end LCAgents
